import Mathlib

/-
Verification of the coinbase_marketdata websocket input plugin
(plugins/inputs/coinbase_marketdata/coinbase_marketdata.go).

The development shallowly embeds the plugin's data model and operations:

* `DynVal` models a Go `interface{}` value as produced by
  `json.Unmarshal` into `map[string]interface{}` (nil, bool, number,
  string, slice, map).
* `govFmt` models `fmt.Sprintf("%v", x)` on such a value.
* `parseFloat?` / `parseInt?` model `strconv.ParseFloat(_, 64)` and
  `strconv.ParseInt(_, 10, 64)` on the decimal forms the feed carries.
* `parseTicker`, `parseL2Update` and `addMetricData` translate the
  functions of the same names; a Go runtime panic (failed type
  assertion, out-of-range index) is embedded as `Option.none`.
* `startTrace` translates the action sequence of `Start`/`subscribe`.
* `Sys`/`step` give a small-step semantics for the concurrent
  `read`/`Stop`/`go addMetric` interaction (done channel, WaitGroup,
  in-flight work items).
-/

/-- A dynamic Go value as produced by `json.Unmarshal` into
`map[string]interface{}`: nil, bool, float64 number, string, slice of
values, or string-keyed map. A number carries its decimal literal text
(see `govFmt`). -/
inductive DynVal where
  | null
  | bool (b : Bool)
  | num (lit : String)
  | str (s : String)
  | arr (elems : List DynVal)
  | obj (fields : List (String × DynVal))

/-- A decoded inbound frame: the `map[string]interface{}` that
`addMetric` builds with `json.Unmarshal`, modelled as an association
list with distinct keys; lookup takes the first match. -/
def RawEvent : Type := List (String × DynVal)

/-- Modelled from the Go standard library: `fmt.Sprintf("%v", x)` on a
dynamic value. A nil interface prints as `<nil>`, booleans as
`true`/`false`, strings verbatim, slices bracketed and space-separated,
maps as `map[k:v ...]`. For a float64 the model prints the number's
decimal literal; Go prints the shortest decimal that round-trips, which
agrees on the string-encoded numerals the feed carries (no claim below
depends on float re-formatting, and the concrete inputs used in
theorems carry numbers as JSON strings exactly as the Coinbase feed
does). -/
def govFmt : DynVal → String
  | DynVal.null => "<nil>"
  | DynVal.bool b => if b then "true" else "false"
  | DynVal.num lit => lit
  | DynVal.str s => s
  | DynVal.arr xs => "[" ++ govFmtList xs ++ "]"
  | DynVal.obj kvs => "map[" ++ govFmtObj kvs ++ "]"
where
  /-- Space-separated rendering of slice elements. -/
  govFmtList : List DynVal → String
    | [] => ""
    | [x] => govFmt x
    | x :: y :: xs => govFmt x ++ " " ++ govFmtList (y :: xs)
  /-- Space-separated `k:v` rendering of map entries. -/
  govFmtObj : List (String × DynVal) → String
    | [] => ""
    | [kv] => kv.1 ++ ":" ++ govFmt kv.2
    | kv :: kv2 :: xs => kv.1 ++ ":" ++ govFmt kv.2 ++ " " ++ govFmtObj (kv2 :: xs)

/-- Consume a leading optional sign; `true` means negative. -/
def parseSign : List Char → Bool × List Char
  | c :: rest =>
    if c = '-' then (true, rest)
    else if c = '+' then (false, rest)
    else (false, c :: rest)
  | [] => (false, [])

/-- Consume leading decimal digits, returning their value, their count
and the remaining characters. -/
def takeDigits : List Char → Nat → Nat → Nat × Nat × List Char
  | c :: rest, acc, n =>
    if c.isDigit then takeDigits rest (acc * 10 + (c.toNat - 48)) (n + 1)
    else (acc, n, c :: rest)
  | [], acc, n => (acc, n, [])

/-- Modelled from the Go standard library: `strconv.ParseFloat(s, 64)`
restricted to finite decimal forms — an optional sign, a mantissa with
at least one digit and at most one dot, and an optional decimal
exponent — returning the exact rational value, or `none` on a syntax
error (Go then returns 0 together with the error, and every caller in
the source discards the error). Go's further acceptances (Inf/NaN
spellings, hexadecimal mantissas, digit-separating underscores) and its
rounding to the nearest binary64 are not modelled; no claim depends on
them. -/
def parseFloat? (s : String) : Option ℚ :=
  let (neg, cs) := parseSign s.data
  let (ip, nInt, cs1) := takeDigits cs 0 0
  let (fp, nFrac, cs2) :=
    match cs1 with
    | c :: rest => if c = '.' then takeDigits rest 0 0 else ((0 : Nat), (0 : Nat), c :: rest)
    | [] => ((0 : Nat), (0 : Nat), ([] : List Char))
  if nInt + nFrac = 0 then none
  else
    let mant : ℚ := (ip : ℚ) + (fp : ℚ) / ((10 : ℚ) ^ nFrac)
    match cs2 with
    | c :: rest =>
      if c = 'e' ∨ c = 'E' then
        let (eneg, rest2) := parseSign rest
        let (ev, nE, rest3) := takeDigits rest2 0 0
        if nE = 0 ∨ rest3 ≠ [] then none
        else
          let e : ℤ := if eneg then -(ev : ℤ) else (ev : ℤ)
          let v := mant * (10 : ℚ) ^ e
          some (if neg then -v else v)
      else none
    | [] => some (if neg then -mant else mant)

/-- Modelled from the Go standard library: `strconv.ParseInt(s, 10, 64)`
— an optional sign followed by decimal digits only; `none` on a syntax
error (Go then returns 0 with the error, discarded by the callers). An
in-syntax value outside the int64 range is clamped as Go does on a
range error. -/
def parseInt? (s : String) : Option ℤ :=
  let (neg, cs) := parseSign s.data
  let (v, n, rest) := takeDigits cs 0 0
  if n = 0 ∨ rest ≠ [] then none
  else
    let iv : ℤ := if neg then -(v : ℤ) else (v : ℤ)
    some (max (-(2 ^ 63)) (min iv (2 ^ 63 - 1)))

/-- Go map indexing `m[k]` on a `map[string]interface{}`: a missing key
yields the zero interface value (nil), which `govFmt` prints as
`<nil>`. -/
def mapIdx (m : RawEvent) (k : String) : DynVal :=
  (List.lookup k m).getD DynVal.null

/-- The source idiom `fmt.Sprintf("%v", m[k])`. -/
def fmtIdx (m : RawEvent) (k : String) : String :=
  govFmt (mapIdx m k)

/-- The source idiom `x, _ := strconv.ParseFloat(fmt.Sprintf("%v", m[k]), 64)`:
the error is discarded, so a syntax error leaves the float64 zero
value. -/
def floatField (m : RawEvent) (k : String) : ℚ :=
  (parseFloat? (fmtIdx m k)).getD 0

/-- The source idiom `x, _ := strconv.ParseInt(fmt.Sprintf("%v", m[k]), 10, 64)`. -/
def intField (m : RawEvent) (k : String) : ℤ :=
  (parseInt? (fmtIdx m k)).getD 0

/-- The `Ticker` struct of the source (field for field). -/
structure Ticker where
  dataType : String
  productId : String
  side : String
  time : String
  price : ℚ
  open24H : ℚ
  volume24H : ℚ
  low24H : ℚ
  high24H : ℚ
  volume30D : ℚ
  bestBid : ℚ
  bestAsk : ℚ
  size : ℚ
  sequenceId : ℤ
  tradeId : ℤ

/-- The `L2Update` struct of the source. -/
structure L2Update where
  dataType : String
  productId : String
  side : String
  price : ℚ
  qty : ℚ
  time : String

/-- Translation of `parseTicker`: every field is extracted from the raw
map independently, numeric fields through the error-discarding
`ParseFloat`/`ParseInt` idiom (`floatField`/`intField`), string fields
through `fmt.Sprintf("%v", ...)`. The integer field reads key
`"sequence"` exactly as the source does (line 202). -/
def parseTicker (m : RawEvent) : Ticker :=
  { dataType := fmtIdx m "type"
    productId := fmtIdx m "product_id"
    side := fmtIdx m "side"
    time := fmtIdx m "time"
    price := floatField m "price"
    open24H := floatField m "open_24h"
    volume24H := floatField m "volume_24h"
    low24H := floatField m "low_24h"
    high24H := floatField m "high_24h"
    volume30D := floatField m "volume_30d"
    bestBid := floatField m "best_bid"
    bestAsk := floatField m "best_ask"
    size := floatField m "last_size"
    sequenceId := intField m "sequence"
    tradeId := intField m "trade_id" }

/-- The Go type assertion `x.([]interface{})` (single-result form): a
runtime panic — embedded as `none` — unless the dynamic value is a
slice. A nil interface (missing key) also panics. -/
def asList? : DynVal → Option (List DynVal)
  | DynVal.arr xs => some xs
  | _ => none

/-- Translation of the row loop of `parseL2Update`: each element of
`changes` is asserted to be a slice (panic otherwise), indexed at
0, 1, 2 (panic when out of range), and appended as one `L2Update`
carrying the frame-level type/product_id/time. A panic anywhere aborts
the whole call with no result. -/
def parseRows (m : RawEvent) : List DynVal → Option (List L2Update)
  | [] => some []
  | c :: rest => do
    let change ← asList? c
    let s ← change.get? 0
    let p ← change.get? 1
    let q ← change.get? 2
    let us ← parseRows m rest
    pure ({ dataType := fmtIdx m "type"
            productId := fmtIdx m "product_id"
            time := fmtIdx m "time"
            side := govFmt s
            price := (parseFloat? (govFmt p)).getD 0
            qty := (parseFloat? (govFmt q)).getD 0 } :: us)

/-- Translation of `parseL2Update`: the first statement asserts
`l2UpdateData["changes"].([]interface{})` — a panic (`none`) when
`changes` is absent or not a slice — then runs the row loop. -/
def parseL2Update (m : RawEvent) : Option (List L2Update) :=
  do parseRows m (← asList? (mapIdx m "changes"))

/-- The record the row loop of `parseL2Update` builds from one
3-or-more-element row `xs` of `changes` (used to state what
`parseL2Update` returns). -/
def rowRecord (m : RawEvent) (xs : List DynVal) : L2Update :=
  { dataType := fmtIdx m "type"
    productId := fmtIdx m "product_id"
    time := fmtIdx m "time"
    side := govFmt (xs.getD 0 DynVal.null)
    price := (parseFloat? (govFmt (xs.getD 1 DynVal.null))).getD 0
    qty := (parseFloat? (govFmt (xs.getD 2 DynVal.null))).getD 0 }

/-- A change row the row loop survives: a slice of at least 3
elements (indices 0, 1, 2 in range). -/
def rowOK : DynVal → Bool
  | DynVal.arr xs => decide (3 ≤ xs.length)
  | _ => false

/-- The Go interface comparison `m["type"] == "ticker"`: true exactly
when the dynamic value is a string with that content. -/
def isStrEq (d : DynVal) (s : String) : Bool :=
  match d with
  | DynVal.str t => t == s
  | _ => false

/-- A typed record handed to `json.Marshal`; since both marshalled
forms are passed straight to the external parser, the byte payload is
modelled by the record itself. -/
inductive Rec where
  | ticker (t : Ticker)
  | l2 (u : L2Update)

/-- Translation of the dispatch part of `addMetric` after a successful
`json.Unmarshal` (whose failure only reports and returns before this
point). The outer `Option` is a panic escaping from `parseL2Update`;
the inner `Option Rec` is the `data []byte` variable, nil until
assigned. The l2update branch mirrors the loop
`for _, updates := range l2Updates { data, _ = json.Marshal(updates) }`:
each iteration overwrites `data`, so the fold keeps only the last
record. An unrecognized type leaves `data` nil. -/
def addMetricData (m : RawEvent) : Option (Option Rec) :=
  if isStrEq (mapIdx m "type") "ticker" then
    some (some (Rec.ticker (parseTicker m)))
  else if isStrEq (mapIdx m "type") "l2update" then
    (parseL2Update m).map (fun us =>
      us.foldl (fun _ u => some (Rec.l2 u)) none)
  else
    some none

/-- Translation of the tail of `addMetric`: when `data` is non-nil it
is passed to `wsl.Parser.Parse(data)` once, and the resulting metrics
are forwarded; the list collects the payloads handed to that parser
stage (one per `Parse` call). -/
def addMetricForwarded (m : RawEvent) : Option (List Rec) :=
  (addMetricData m).map (fun d =>
    match d with
    | some r => [r]
    | none => [])

/-- `websocket.TextMessage` versus `websocket.BinaryMessage` in
`conn.WriteMessage`. -/
inductive FrameKind where
  | text
  | binary
deriving DecidableEq, Repr

/-- Outcome of `websocket.DefaultDialer.Dial`. -/
inductive DialResult where
  | ok
  | err
deriving DecidableEq, Repr

/-- Outcome of `conn.WriteMessage` in `subscribe`. -/
inductive WriteResult where
  | ok
  | err
deriving DecidableEq, Repr

/-- Observable actions of `Start` (logging aside): the dial, launching
the read goroutine, the subscription write with its frame kind and
payload, and process termination. -/
inductive StartAction where
  | dialOk
  | dialFail
  | spawnRead
  | writeOk (kind : FrameKind) (payload : String)
  | writeFail (kind : FrameKind) (payload : String)
  | procExit
deriving DecidableEq, Repr

/-- Translation of `Start` (with `subscribe` inlined), as the sequence
of actions it performs given the dial and write outcomes. On a dial
error the source calls `log.Fatal("dial:", err)`; in the Go standard
library `log.Fatal` prints and then calls `os.Exit(1)`, so the process
terminates and the following `return err` is unreachable — hence the
trace ends in `procExit`. On a dial success the source launches
`go wsl.read()` (line 126) and only then calls `subscribe()`
(line 129), which performs a single
`conn.WriteMessage(websocket.TextMessage, []byte(wsl.OnConnectMsg))`
with the configured payload verbatim; a write error again reaches
`log.Fatal` and terminates the process. -/
def startTrace (msg : String) : DialResult → WriteResult → List StartAction
  | DialResult.err, _ =>
      [StartAction.dialFail, StartAction.procExit]
  | DialResult.ok, WriteResult.err =>
      [StartAction.dialOk, StartAction.spawnRead,
       StartAction.writeFail FrameKind.text msg, StartAction.procExit]
  | DialResult.ok, WriteResult.ok =>
      [StartAction.dialOk, StartAction.spawnRead,
       StartAction.writeOk FrameKind.text msg]

/-- The subscription payloads successfully written during a trace. -/
def sentWrites (tr : List StartAction) : List (FrameKind × String) :=
  tr.filterMap (fun a =>
    match a with
    | StartAction.writeOk k p => some (k, p)
    | _ => none)

/-- Where the read loop of `read` is: evaluating its `select`,
blocked inside `conn.ReadMessage()`, or returned. -/
inductive RLoc where
  | atSelect
  | inRead
  | exited
deriving DecidableEq, Repr

/-- Program counter of a `Stop` call: no call in progress, blocked on
the unbuffered send `wsl.done <- true`, at the `Closer` nil-check, or
at `wsl.wg.Wait()`. -/
inductive SPC where
  | idle
  | atSend
  | atClose
  | atWait
deriving DecidableEq, Repr

/-- State of the concurrent `read`/`Stop`/`go addMetric` interaction.
`frames` is the environment's schedule of what the next
`conn.ReadMessage()` calls return (`true` a frame, `false` an error);
`inFlight` counts spawned `addMetric` goroutines still running;
`stopsDone` counts returned `Stop` calls; `sinkAfterStop` counts
accumulator (sink/error-channel) calls made by a goroutine finishing
after some `Stop` call has already returned; `stopObserved` records
whether the read loop ever took the `case <-wsl.done` branch. -/
structure Sys where
  readerAt : RLoc
  spc : SPC
  stopsDone : Nat
  closerPresent : Bool
  closeCount : Nat
  frames : List Bool
  inFlight : Nat
  sinkAfterStop : Nat
  stopObserved : Bool
deriving DecidableEq, Repr

/-- Scheduler events: begin a `Stop` call, the done-channel rendezvous,
the `select` taking its `default` branch, `conn.ReadMessage` returning,
the `Closer` nil-check, `wg.Wait()` returning, and one spawned
`addMetric` goroutine finishing. -/
inductive Ev where
  | evStartStop
  | evRendezvous
  | evSelectDefault
  | evRead
  | evClose
  | evWait
  | evTask
deriving DecidableEq, Repr

/-- Small-step semantics, faithful to the source:
* `done` is unbuffered (`make(chan bool)`), so `wsl.done <- true` in
  `Stop` only proceeds by rendezvous with the loop's `case <-wsl.done`,
  which is ready exactly when the reader is evaluating its `select`
  while a sender is pending; Go's `select` takes the ready receive
  then, and takes `default` (committing to a blocking
  `conn.ReadMessage()`) whenever no sender is pending.
* A successful read spawns `go wsl.addMetric(message)` with no
  `wg.Add` anywhere in the source, so the `WaitGroup` counter stays 0
  and `wg.Wait()` (`evWait`) is always ready to return regardless of
  `inFlight`.
* `evClose` performs `if wsl.Closer != nil { wsl.Close(); wsl.Closer = nil }`.
* A finishing goroutine calls the accumulator (`AddMetric`/`AddError`);
  when some `Stop` has already returned this increments
  `sinkAfterStop`. -/
def step (s : Sys) : Ev → Option Sys
  | Ev.evStartStop =>
      if s.spc = SPC.idle then some { s with spc := SPC.atSend } else none
  | Ev.evRendezvous =>
      if s.spc = SPC.atSend ∧ s.readerAt = RLoc.atSelect then
        some { s with readerAt := RLoc.exited, spc := SPC.atClose,
                      stopObserved := true }
      else none
  | Ev.evSelectDefault =>
      if s.readerAt = RLoc.atSelect ∧ ¬ s.spc = SPC.atSend then
        some { s with readerAt := RLoc.inRead }
      else none
  | Ev.evRead =>
      match s.readerAt, s.frames with
      | RLoc.inRead, f :: rest =>
          if f then
            some { s with frames := rest, inFlight := s.inFlight + 1,
                          readerAt := RLoc.atSelect }
          else
            some { s with frames := rest, readerAt := RLoc.exited }
      | _, _ => none
  | Ev.evClose =>
      if s.spc = SPC.atClose then
        if s.closerPresent then
          some { s with spc := SPC.atWait, closerPresent := false,
                        closeCount := s.closeCount + 1 }
        else some { s with spc := SPC.atWait }
      else none
  | Ev.evWait =>
      if s.spc = SPC.atWait then
        some { s with spc := SPC.idle, stopsDone := s.stopsDone + 1 }
      else none
  | Ev.evTask =>
      match s.inFlight with
      | n + 1 =>
          some { s with inFlight := n,
                        sinkAfterStop :=
                          if 1 ≤ s.stopsDone then s.sinkAfterStop + 1
                          else s.sinkAfterStop }
      | 0 => none

/-- All scheduler events. -/
def allEvs : List Ev :=
  [Ev.evStartStop, Ev.evRendezvous, Ev.evSelectDefault, Ev.evRead,
   Ev.evClose, Ev.evWait, Ev.evTask]

/-- Enabled successor states. An empty list means the whole system is
stuck: every thread is blocked forever. -/
def nextStates (s : Sys) : List Sys :=
  allEvs.filterMap (step s)

/-- Run a schedule from a state; `none` when a listed event is not
enabled at its turn. -/
def run (s : Sys) : List Ev → Option Sys
  | [] => some s
  | e :: es =>
    match step s e with
    | some t => run t es
    | none => none

/-- The state just after `Start` succeeded: the read goroutine is at
its `select`, no `Stop` call is in progress, nothing spawned yet.
`closer` says whether the embedded `io.Closer` field is non-nil and
`fs` schedules the results of the coming `conn.ReadMessage()` calls. -/
def startSys (closer : Bool) (fs : List Bool) : Sys :=
  { readerAt := RLoc.atSelect, spc := SPC.idle, stopsDone := 0,
    closerPresent := closer, closeCount := 0, frames := fs,
    inFlight := 0, sinkAfterStop := 0, stopObserved := false }

/-- Reachability along enabled steps. -/
inductive Reach : Sys → Sys → Prop
  | refl (s : Sys) : Reach s s
  | tail {a b c : Sys} (h : Reach a b) (e : Ev) (hs : step b e = some c) :
      Reach a c

/-- Remove a key from a raw event (used to state claims about absent
fields). -/
def eraseKey : RawEvent → String → RawEvent
  | [], _ => []
  | kv :: rest, k => if kv.1 = k then eraseKey rest k else kv :: eraseKey rest k

/-- Bind a key in a raw event (used to state claims comparing a frame
with and without a field). -/
def insertKey (m : RawEvent) (k : String) (v : DynVal) : RawEvent :=
  (k, v) :: eraseKey m k

/-- The two well-formed rows used as the concrete K=2 instance. -/
def exRows : List (List DynVal) :=
  [[DynVal.str "buy", DynVal.str "731.99", DynVal.str "1.24025886"],
   [DynVal.str "sell", DynVal.str "732.10", DynVal.str "0.5"]]

/-- A concrete l2update frame with two well-formed change rows. -/
def exL2 : RawEvent :=
  [("type", DynVal.str "l2update"), ("product_id", DynVal.str "ETH-USD"),
   ("time", DynVal.str "2020-12-28T23:54:32.051347Z"),
   ("changes", DynVal.arr (exRows.map DynVal.arr))]

/-- A concrete l2update frame with one well-formed change row followed
by a wrong-arity row (a 1-element slice). -/
def exBadRow : RawEvent :=
  [("type", DynVal.str "l2update"), ("product_id", DynVal.str "ETH-USD"),
   ("time", DynVal.str "2020-12-28T23:54:32.051347Z"),
   ("changes", DynVal.arr
     [DynVal.arr [DynVal.str "buy", DynVal.str "731.99", DynVal.str "1.24025886"],
      DynVal.arr [DynVal.str "sell"]])]

/-- The change rows of the concrete tolerant instance: the first row
carries a non-numeric price and a nil quantity. -/
def exTolerantRows : List DynVal :=
  [DynVal.arr [DynVal.str "buy", DynVal.str "not-a-number", DynVal.null],
   DynVal.arr [DynVal.str "sell", DynVal.str "732.10", DynVal.str "0.5"]]

/-- A concrete l2update frame pairing a non-numeric row with a
well-formed sibling. -/
def exTolerant : RawEvent :=
  [("type", DynVal.str "l2update"), ("product_id", DynVal.str "ETH-USD"),
   ("time", DynVal.str "2020-12-28T23:54:32.051347Z"),
   ("changes", DynVal.arr exTolerantRows)]

/-- A concrete l2update frame with no `changes` key at all. -/
def exNoChanges : RawEvent :=
  [("type", DynVal.str "l2update"), ("product_id", DynVal.str "ETH-USD"),
   ("time", DynVal.str "2020-12-28T23:54:32.051347Z")]

/-- A concrete l2update frame with two well-formed change rows, as fed
to the dispatch path. -/
def exTwoRows : RawEvent :=
  [("type", DynVal.str "l2update"), ("product_id", DynVal.str "ETH-USD"),
   ("time", DynVal.str "2020-12-28T23:54:32.051347Z"),
   ("changes", DynVal.arr
     [DynVal.arr [DynVal.str "buy", DynVal.str "731.99", DynVal.str "1.24025886"],
      DynVal.arr [DynVal.str "sell", DynVal.str "732.10", DynVal.str "0.5"]])]

/-- A concrete well-formed ticker frame (values as the feed delivers
them: numerics as JSON strings, ids as JSON numbers). -/
def exTicker : RawEvent :=
  [("type", DynVal.str "ticker"), ("product_id", DynVal.str "ETH-USD"),
   ("side", DynVal.str "buy"), ("time", DynVal.str "2020-12-28T23:54:32.051347Z"),
   ("price", DynVal.str "731.99"), ("open_24h", DynVal.str "684.11"),
   ("volume_24h", DynVal.str "395831.08785795"), ("low_24h", DynVal.str "680.9"),
   ("high_24h", DynVal.str "747"), ("volume_30d", DynVal.str "6144317.83380943"),
   ("best_bid", DynVal.str "731.83"), ("best_ask", DynVal.str "731.99"),
   ("last_size", DynVal.str "0.24169456"),
   ("sequence", DynVal.num "12238444095"), ("trade_id", DynVal.num "71476932")]

/-- The state after the scenario of `second_stop_blocks_forever` with a
work item still in flight: reader exited, a `Stop` blocked at the done
send. -/
def stuckStop : Sys :=
  { readerAt := RLoc.exited, spc := SPC.atSend, stopsDone := 1,
    closerPresent := false, closeCount := 1, frames := [],
    inFlight := 1, sinkAfterStop := 0, stopObserved := true }

/-- The stuck state of `stop_unobserved_while_reading`, with a work
item in flight so a step exists. -/
def stuckRead : Sys :=
  { readerAt := RLoc.inRead, spc := SPC.atSend, stopsDone := 0,
    closerPresent := false, closeCount := 0, frames := [],
    inFlight := 1, sinkAfterStop := 0, stopObserved := false }

lemma lookup_eraseKey_self (m : RawEvent) (k : String) :
    List.lookup k (eraseKey m k) = none := by
  induction m with
  | nil => rfl
  | cons kv rest ih =>
    obtain ⟨a, b⟩ := kv
    by_cases h : a = k
    · simpa [eraseKey, h] using ih
    · have hba : (k == a) = false := by
        simp [Ne.symm h]
      simpa [eraseKey, h, List.lookup, hba] using ih

lemma mapIdx_eraseKey_self (m : RawEvent) (k : String) :
    mapIdx (eraseKey m k) k = DynVal.null := by
  simp [mapIdx, lookup_eraseKey_self]

lemma mapIdx_insertKey_ne (m : RawEvent) (k k' : String) (v : DynVal)
    (h : k' ≠ k) : mapIdx (insertKey m k v) k' = mapIdx (eraseKey m k) k' := by
  have hba : (k' == k) = false := by simp [h]
  simp [mapIdx, insertKey, List.lookup, hba]

lemma parseRows_ok (m : RawEvent) (cs : List DynVal)
    (h : ∀ c ∈ cs, rowOK c = true) :
    parseRows m cs =
      some (cs.map (fun c => rowRecord m ((asList? c).getD []))) := by
  induction cs with
  | nil => rfl
  | cons c rest ih =>
    have hc : rowOK c = true := h c (by simp)
    have hrest : ∀ x ∈ rest, rowOK x = true := fun x hx => h x (by simp [hx])
    cases c with
    | null => simp [rowOK] at hc
    | bool b => simp [rowOK] at hc
    | num lit => simp [rowOK] at hc
    | str s => simp [rowOK] at hc
    | obj kvs => simp [rowOK] at hc
    | arr xs =>
      have hlen : 3 ≤ xs.length := by simpa [rowOK] using hc
      have h0 : xs[0]? = some (xs.getD 0 DynVal.null) := by
        cases hx : xs[0]? with
        | none =>
          have := List.getElem?_eq_none_iff.mp hx
          omega
        | some a => simp [List.getD_eq_getElem?_getD, hx]
      have h1 : xs[1]? = some (xs.getD 1 DynVal.null) := by
        cases hx : xs[1]? with
        | none =>
          have := List.getElem?_eq_none_iff.mp hx
          omega
        | some a => simp [List.getD_eq_getElem?_getD, hx]
      have h2 : xs[2]? = some (xs.getD 2 DynVal.null) := by
        cases hx : xs[2]? with
        | none =>
          have := List.getElem?_eq_none_iff.mp hx
          omega
        | some a => simp [List.getD_eq_getElem?_getD, hx]
      simp only [parseRows, asList?, Option.bind_eq_bind, Option.some_bind,
        List.get?_eq_getElem?, h0, h1, h2, ih hrest, List.map_cons,
        Option.getD_some, rowRecord]
      rfl

/-- Claim C4: for an l2update raw event whose `changes` entry holds K
3-element rows, `parseL2Update` returns exactly K records, one per row
in row order, each carrying the frame-level product_id and time. -/
theorem l2update_k_rows (m : RawEvent) (rows : List (List DynVal))
    (hc : mapIdx m "changes" = DynVal.arr (rows.map DynVal.arr))
    (h3 : ∀ r ∈ rows, r.length = 3) :
    parseL2Update m = some (rows.map (rowRecord m))
      ∧ (rows.map (rowRecord m)).length = rows.length
      ∧ ∀ u ∈ rows.map (rowRecord m),
          u.productId = fmtIdx m "product_id" ∧ u.time = fmtIdx m "time" := by
  have hok : ∀ c ∈ rows.map DynVal.arr, rowOK c = true := by
    intro c hcm
    rcases List.mem_map.mp hcm with ⟨r, hr, rfl⟩
    simp [rowOK, h3 r hr]
  refine ⟨?_, by simp, ?_⟩
  · simp only [parseL2Update, hc, asList?, Option.bind_eq_bind,
      Option.some_bind, parseRows_ok m _ hok, bind, List.map_map]
    rfl
  · intro u hu
    rcases List.mem_map.mp hu with ⟨r, hr, rfl⟩
    exact ⟨rfl, rfl⟩

/-- Witness for C4 at the concrete K=2 frame. -/
theorem l2update_k_rows_w :
    parseL2Update exL2 = some (exRows.map (rowRecord exL2))
      ∧ (exRows.map (rowRecord exL2)).length = exRows.length
      ∧ ∀ u ∈ exRows.map (rowRecord exL2),
          u.productId = fmtIdx exL2 "product_id" ∧ u.time = fmtIdx exL2 "time" :=
  l2update_k_rows exL2 exRows (by rfl) (by decide)

/-- Claim C2, counterexample: with one well-formed row and one
wrong-arity sibling, `parseL2Update` aborts entirely (an index panic in
the source) — the well-formed sibling yields no record, so a malformed
row does abort processing of the remaining rows. -/
theorem l2_badrow_aborts_all : parseL2Update exBadRow = none := by rfl

/-- Claim C2 as amended: a row whose price or quantity is non-numeric
does not abort processing — every change row that is a slice with at
least 3 elements yields a record, whatever the contents (unparsable
numerics coerce to zero via the discarded-error idiom) — and the
normalizer completes with exactly one record per row. Rows of wrong
arity are not tolerated (see the counterexample). -/
theorem l2_rows_tolerant (m : RawEvent) (rows : List DynVal)
    (hc : mapIdx m "changes" = DynVal.arr rows)
    (h3 : ∀ c ∈ rows, rowOK c = true) :
    ∃ us, parseL2Update m = some us ∧ us.length = rows.length := by
  refine ⟨rows.map (fun c => rowRecord m ((asList? c).getD [])), ?_, by simp⟩
  simp only [parseL2Update, hc, asList?, Option.bind_eq_bind, Option.some_bind,
    parseRows_ok m rows h3, bind]

/-- Witness for the amended C2 at the concrete frame. -/
theorem l2_rows_tolerant_w :
    ∃ us, parseL2Update exTolerant = some us
      ∧ us.length = exTolerantRows.length :=
  l2_rows_tolerant exTolerant exTolerantRows (by rfl) (by decide)

/-- Claim C10: a normal return of `parseL2Update` needs `changes` to be
present and bound to a slice — when the initial type assertion fails
(key absent, hence a nil interface, or a non-slice value) the call
aborts with no result, not even an empty list. -/
theorem l2_changes_guard (m : RawEvent)
    (h : asList? (mapIdx m "changes") = none) :
    parseL2Update m = none := by
  simp only [parseL2Update, h, Option.bind_eq_bind, Option.none_bind]

/-- Witness for C10 at the concrete frame. -/
theorem l2_changes_guard_w : parseL2Update exNoChanges = none :=
  l2_changes_guard exNoChanges (by rfl)

/-- Claim C1, behavior at the failing input: for the K=2 frame the
dispatch path hands the external parser exactly one payload — the
record marshalled from the LAST change row — because the loop in
`addMetric` overwrites the single `data` variable on every iteration
and `Parser.Parse` is called only once, after the loop. The first
row's record is marshalled and discarded, never parsed or forwarded. -/
theorem l2_only_last_row_forwarded :
    addMetricForwarded exTwoRows =
      some [Rec.l2 (rowRecord exTwoRows
        [DynVal.str "sell", DynVal.str "732.10", DynVal.str "0.5"])]
      ∧ (addMetricForwarded exTwoRows).map List.length = some 1 := by
  constructor
  · rfl
  · rfl

lemma floatField_eraseKey_self (m : RawEvent) (k : String) :
    floatField (eraseKey m k) k = 0 := by
  have hnil : parseFloat? "<nil>" = none := by rfl
  simp [floatField, fmtIdx, mapIdx_eraseKey_self, govFmt, hnil]

lemma fmtIdx_erase_insert (m : RawEvent) (k k' : String) (v : DynVal)
    (h : k' ≠ k) :
    fmtIdx (eraseKey m k) k' = fmtIdx (insertKey m k v) k' := by
  simp [fmtIdx, mapIdx_insertKey_ne m k k' v h]

lemma floatField_erase_insert (m : RawEvent) (k k' : String) (v : DynVal)
    (h : k' ≠ k) :
    floatField (eraseKey m k) k' = floatField (insertKey m k v) k' := by
  simp [floatField, fmtIdx_erase_insert m k k' v h]

lemma intField_erase_insert (m : RawEvent) (k k' : String) (v : DynVal)
    (h : k' ≠ k) :
    intField (eraseKey m k) k' = intField (insertKey m k v) k' := by
  simp [intField, fmtIdx_erase_insert m k k' v h]

lemma parseTicker_erase_insert (m : RawEvent) (v : DynVal) :
    parseTicker (eraseKey m "open_24h") =
      { parseTicker (insertKey m "open_24h" v) with open24H := 0 } := by
  simp only [parseTicker]
  simp only [Ticker.mk.injEq]
  refine ⟨?_, ?_, ?_, ?_, ?_, ?_, ?_, ?_, ?_, ?_, ?_, ?_, ?_, ?_, ?_⟩
  · exact fmtIdx_erase_insert m _ "type" v (by decide)
  · exact fmtIdx_erase_insert m _ "product_id" v (by decide)
  · exact fmtIdx_erase_insert m _ "side" v (by decide)
  · exact fmtIdx_erase_insert m _ "time" v (by decide)
  · exact floatField_erase_insert m _ "price" v (by decide)
  · exact floatField_eraseKey_self m "open_24h"
  · exact floatField_erase_insert m _ "volume_24h" v (by decide)
  · exact floatField_erase_insert m _ "low_24h" v (by decide)
  · exact floatField_erase_insert m _ "high_24h" v (by decide)
  · exact floatField_erase_insert m _ "volume_30d" v (by decide)
  · exact floatField_erase_insert m _ "best_bid" v (by decide)
  · exact floatField_erase_insert m _ "best_ask" v (by decide)
  · exact floatField_erase_insert m _ "last_size" v (by decide)
  · exact intField_erase_insert m _ "sequence" v (by decide)
  · exact intField_erase_insert m _ "trade_id" v (by decide)

/-- Claim C3: in `parseTicker` every numeric field whose raw value does
not parse (absent keys print as `<nil>` and never parse) decodes to the
numeric zero value of its own field only; in particular a frame without
`open_24h` yields `open24H = 0` with every other field exactly as it
would be were `open_24h` present (with any value). -/
theorem ticker_field_tolerance (m : RawEvent) (v : DynVal) :
    ((parseFloat? (fmtIdx m "price") = none → (parseTicker m).price = 0)
      ∧ (parseFloat? (fmtIdx m "open_24h") = none → (parseTicker m).open24H = 0)
      ∧ (parseFloat? (fmtIdx m "volume_24h") = none → (parseTicker m).volume24H = 0)
      ∧ (parseFloat? (fmtIdx m "low_24h") = none → (parseTicker m).low24H = 0)
      ∧ (parseFloat? (fmtIdx m "high_24h") = none → (parseTicker m).high24H = 0)
      ∧ (parseFloat? (fmtIdx m "volume_30d") = none → (parseTicker m).volume30D = 0)
      ∧ (parseFloat? (fmtIdx m "best_bid") = none → (parseTicker m).bestBid = 0)
      ∧ (parseFloat? (fmtIdx m "best_ask") = none → (parseTicker m).bestAsk = 0)
      ∧ (parseFloat? (fmtIdx m "last_size") = none → (parseTicker m).size = 0)
      ∧ (parseInt? (fmtIdx m "sequence") = none → (parseTicker m).sequenceId = 0)
      ∧ (parseInt? (fmtIdx m "trade_id") = none → (parseTicker m).tradeId = 0))
    ∧ (parseTicker (eraseKey m "open_24h")).open24H = 0
    ∧ parseTicker (eraseKey m "open_24h") =
        { parseTicker (insertKey m "open_24h" v) with open24H := 0 } := by
  refine ⟨⟨?_, ?_, ?_, ?_, ?_, ?_, ?_, ?_, ?_, ?_, ?_⟩,
    by simp [parseTicker, floatField_eraseKey_self],
    parseTicker_erase_insert m v⟩
  all_goals intro h
  all_goals simp [parseTicker, floatField, intField, h]

/-- Witness for C3: dropping `open_24h` from the concrete ticker frame
zeroes `open24H` and leaves every other field as with the field
present. -/
theorem ticker_field_tolerance_w :
    (parseTicker (eraseKey exTicker "open_24h")).open24H = 0
      ∧ parseTicker (eraseKey exTicker "open_24h") =
          { parseTicker (insertKey exTicker "open_24h" (DynVal.str "684.11")) with
              open24H := 0 } :=
  ⟨(ticker_field_tolerance exTicker (DynVal.str "684.11")).2.1,
   (ticker_field_tolerance exTicker (DynVal.str "684.11")).2.2⟩

/-- Claim C5, counterexample: when the dial fails, the trace of `Start`
ends in process termination (`log.Fatal` = print + `os.Exit(1)`); the
error is never returned to the caller — `return err` is unreachable. -/
theorem start_dial_failure_exits :
    startTrace "sub" DialResult.err WriteResult.ok
        = [StartAction.dialFail, StartAction.procExit]
      ∧ StartAction.procExit ∈ startTrace "sub" DialResult.err WriteResult.ok := by
  exact ⟨rfl, by decide⟩

/-- Claim C5 as amended: a dial failure or a subscription-write failure
makes `Start` call `log.Fatal`, terminating the whole process; no error
value reaches the caller of `Start`. -/
theorem start_fatal_never_returns (msg : String) :
    (∀ w, startTrace msg DialResult.err w
        = [StartAction.dialFail, StartAction.procExit])
      ∧ startTrace msg DialResult.ok WriteResult.err
        = [StartAction.dialOk, StartAction.spawnRead,
           StartAction.writeFail FrameKind.text msg, StartAction.procExit] :=
  ⟨fun w => by cases w <;> rfl, rfl⟩

/-- Claim C8, counterexample: on the success path `Start` launches the
read goroutine (index 1 of the trace) BEFORE performing the
subscription write (index 2) — the write does not happen before the
read path is started. -/
theorem subscribe_after_read_started :
    startTrace "sub" DialResult.ok WriteResult.ok
        = [StartAction.dialOk, StartAction.spawnRead,
           StartAction.writeOk FrameKind.text "sub"]
      ∧ (startTrace "sub" DialResult.ok WriteResult.ok).findIdx
          (fun a => a == StartAction.spawnRead)
        < (startTrace "sub" DialResult.ok WriteResult.ok).findIdx
          (fun a => a == StartAction.writeOk FrameKind.text "sub") := by
  exact ⟨rfl, by decide⟩

/-- Claim C8 as amended: on successful connect, `Start` writes
`onConnectMessage` exactly once, verbatim, as a single text frame —
but only after the read goroutine has been launched. -/
theorem subscribe_once_verbatim (msg : String) :
    sentWrites (startTrace msg DialResult.ok WriteResult.ok)
        = [(FrameKind.text, msg)]
      ∧ startTrace msg DialResult.ok WriteResult.ok
        = [StartAction.dialOk, StartAction.spawnRead,
           StartAction.writeOk FrameKind.text msg] :=
  ⟨rfl, rfl⟩

/-- Claim C6, behavior at the failing scenario: one frame arrives and
spawns an `addMetric` goroutine; `Stop` is then called. Because the
source never calls `wg.Add`, `wg.Wait()` returns at once: after the
`Stop` body completes (`evWait`) one work item is still in flight
(`stopsDone = 1 ∧ inFlight = 1`), and when that goroutine then
finishes it makes an accumulator call after `Stop` has already
returned (`sinkAfterStop = 1`). -/
theorem stop_returns_with_work_in_flight :
    (run (startSys false [true])
        [Ev.evSelectDefault, Ev.evRead, Ev.evStartStop, Ev.evRendezvous,
         Ev.evClose, Ev.evWait]).map (fun s => (s.stopsDone, s.inFlight))
      = some (1, 1)
    ∧ (run (startSys false [true])
        [Ev.evSelectDefault, Ev.evRead, Ev.evStartStop, Ev.evRendezvous,
         Ev.evClose, Ev.evWait, Ev.evTask]).map
          (fun s => (s.stopsDone, s.inFlight, s.sinkAfterStop))
      = some (1, 0, 1) := by
  exact ⟨rfl, rfl⟩

/-- Claim C7, counterexample: call `Stop` twice in sequence. The first
call rendezvouses with the read loop, closes the handle once and
returns (`stopsDone = 1`, `closeCount = 1`); the second call blocks on
the unbuffered `wsl.done <- true` with the reader already exited — no
event is enabled any more (`nextStates = []`), so the second `Stop`
blocks indefinitely and can never return. -/
theorem second_stop_blocks_forever :
    (run (startSys true [])
        [Ev.evStartStop, Ev.evRendezvous, Ev.evClose, Ev.evWait,
         Ev.evStartStop]).map
        (fun s => (s.stopsDone, s.closeCount, nextStates s))
      = some (1, 1, []) := by
  rfl

/-- Claim C7 as amended: once the read loop has exited, a `Stop` call
blocked on the unbuffered done send can never proceed — from any such
state every reachable state still has the call pending at the send, no
further `Stop` ever returns, and the handle is never closed again
(`closeCount` frozen); the first call's nil-guard had already made the
close at most one across both calls. -/
theorem stop_after_reader_exit_blocks (s t : Sys)
    (h1 : s.readerAt = RLoc.exited) (h2 : s.spc = SPC.atSend)
    (h : Reach s t) :
    t.stopsDone = s.stopsDone ∧ t.spc = SPC.atSend
      ∧ t.closeCount = s.closeCount := by
  have key : t.readerAt = RLoc.exited ∧ t.spc = SPC.atSend
      ∧ t.stopsDone = s.stopsDone ∧ t.closeCount = s.closeCount := by
    induction h with
    | refl => exact ⟨h1, h2, rfl, rfl⟩
    | tail hr e hs ih =>
      rename_i b c
      obtain ⟨ra, sp, sd, cc⟩ := ih
      cases e with
      | evStartStop => simp [step, sp] at hs
      | evRendezvous => simp [step, ra, sp] at hs
      | evSelectDefault => simp [step, ra] at hs
      | evRead => simp [step, ra] at hs
      | evClose => simp [step, sp] at hs
      | evWait => simp [step, sp] at hs
      | evTask =>
        cases hf : b.inFlight with
        | zero => simp [step, hf] at hs
        | succ n =>
          simp [step, hf] at hs
          subst hs
          exact ⟨ra, sp, sd, cc⟩
  exact ⟨key.2.2.1, key.2.1, key.2.2.2⟩

/-- Witness for the amended C7 along a concrete reachable step. -/
theorem stop_after_reader_exit_blocks_w :
    ({ stuckStop with inFlight := 0, sinkAfterStop := 1 } : Sys).stopsDone
        = stuckStop.stopsDone
      ∧ ({ stuckStop with inFlight := 0, sinkAfterStop := 1 } : Sys).spc
        = SPC.atSend
      ∧ ({ stuckStop with inFlight := 0, sinkAfterStop := 1 } : Sys).closeCount
        = stuckStop.closeCount :=
  stop_after_reader_exit_blocks stuckStop _ rfl rfl
    (Reach.tail (Reach.refl stuckStop) Ev.evTask (by rfl))

/-- Claim C9, counterexample: the read loop's `select` has a `default`
branch, so with no stop sender pending it commits to a blocking
`conn.ReadMessage()`. If `Stop` is signalled afterwards and no frame
ever arrives, no event is enabled (`nextStates = []`): the reader stays
inside the read forever and the stop signal is never observed
(`stopObserved = false`) — the read path does not wait on
frame-or-stop, whichever first. -/
theorem stop_unobserved_while_reading :
    (run (startSys false []) [Ev.evSelectDefault, Ev.evStartStop]).map
        (fun s => (s.readerAt, s.stopObserved, nextStates s))
      = some (RLoc.inRead, false, []) := by
  rfl

/-- Claim C9 as amended: the stop signal is observed only at the top of
a loop iteration. While the read path is committed to a blocking read
and no frame arrives, no reachable state ever observes the stop signal
and the reader never leaves the read; the signal IS taken — without the
transport being closed — whenever the reader is at its `select` with a
sender already pending. -/
theorem stop_observed_only_between_reads (s t : Sys)
    (h1 : s.readerAt = RLoc.inRead) (h2 : s.frames = [])
    (h : Reach s t) :
    (t.stopObserved = s.stopObserved ∧ t.readerAt = RLoc.inRead)
      ∧ ∀ u : Sys, u.readerAt = RLoc.atSelect → u.spc = SPC.atSend →
          ∃ u2, step u Ev.evRendezvous = some u2 ∧ u2.stopObserved = true := by
  have key : t.stopObserved = s.stopObserved ∧ t.readerAt = RLoc.inRead
      ∧ t.frames = [] := by
    induction h with
    | refl => exact ⟨rfl, h1, h2⟩
    | tail hr e hs ih =>
      rename_i b c
      obtain ⟨so, ra, fr⟩ := ih
      cases e with
      | evStartStop =>
        cases hsp : b.spc with
        | idle =>
          simp [step, hsp] at hs
          subst hs
          exact ⟨so, ra, fr⟩
        | atSend => simp [step, hsp] at hs
        | atClose => simp [step, hsp] at hs
        | atWait => simp [step, hsp] at hs
      | evRendezvous => simp [step, ra] at hs
      | evSelectDefault => simp [step, ra] at hs
      | evRead => simp [step, ra, fr] at hs
      | evClose =>
        cases hsp : b.spc with
        | atClose =>
          cases hcp : b.closerPresent <;> simp [step, hsp, hcp] at hs <;>
            subst hs <;> exact ⟨so, ra, fr⟩
        | idle => simp [step, hsp] at hs
        | atSend => simp [step, hsp] at hs
        | atWait => simp [step, hsp] at hs
      | evWait =>
        cases hsp : b.spc with
        | atWait =>
          simp [step, hsp] at hs
          subst hs
          exact ⟨so, ra, fr⟩
        | idle => simp [step, hsp] at hs
        | atSend => simp [step, hsp] at hs
        | atClose => simp [step, hsp] at hs
      | evTask =>
        cases hf : b.inFlight with
        | zero => simp [step, hf] at hs
        | succ n =>
          simp [step, hf] at hs
          subst hs
          exact ⟨so, ra, fr⟩
  refine ⟨⟨key.1, key.2.1⟩, ?_⟩
  intro u hu1 hu2
  exact ⟨{ u with readerAt := RLoc.exited, spc := SPC.atClose, stopObserved := true }, by simp [step, hu1, hu2], rfl⟩

/-- Witness for the amended C9 along a concrete reachable step. -/
theorem stop_observed_only_between_reads_w :
    (({ stuckRead with inFlight := 0 } : Sys).stopObserved
          = stuckRead.stopObserved
        ∧ ({ stuckRead with inFlight := 0 } : Sys).readerAt = RLoc.inRead)
      ∧ ∀ u : Sys, u.readerAt = RLoc.atSelect → u.spc = SPC.atSend →
          ∃ u2, step u Ev.evRendezvous = some u2 ∧ u2.stopObserved = true :=
  stop_observed_only_between_reads stuckRead _ rfl rfl
    (Reach.tail (Reach.refl stuckRead) Ev.evTask (by rfl))
